import Mathlib

/-!
Verification development for the SE-MobileNet-v2 classification network
(file fblib/networks/classification/se_mobilenet_v2.py).

The Python source is shallowly embedded below: the construction-time
configuration logic (stride assertion, input-size assertion, width-multiplier
scaling, the body schedule), the squeeze-and-excitation gate as a function on
real-valued tensors, the weight-initialization policy as a per-module-kind
description, and the pretrained-checkpoint key normalization as functions on
lists of character-list keys. Python float arithmetic is embedded as exact
rational arithmetic, and tensor arithmetic as real arithmetic.
-/

/-- Python int() conversion on an exact rational: truncation toward zero. -/
def pyInt (q : ℚ) : ℤ := if 0 ≤ q then ⌊q⌋ else ⌈q⌉

/-- Characters of the distributed-training marker module. searched for and
removed by the pretrained-weight loader. -/
def modPat : List Char := ['m', 'o', 'd', 'u', 'l', 'e', '.']

/-- Embedding of k.replace applied with the module. pattern and the empty
replacement, as in the loader: scan left to right; whenever the pattern
matches at the current position remove it and continue after it, otherwise
keep the character and move on. -/
def pyRemove : List Char → List Char
  | 'm' :: 'o' :: 'd' :: 'u' :: 'l' :: 'e' :: '.' :: rest => pyRemove rest
  | c :: rest => c :: pyRemove rest
  | [] => []

/-- Embedding of the Python substring test: pat occurs somewhere in s. -/
def listContains (pat : List Char) : List Char → Bool
  | [] => pat.isPrefixOf []
  | c :: rest => pat.isPrefixOf (c :: rest) || listContains pat rest

/-- Embedding of the DataParallel handling in se_mobilenet_v2: a checkpoint is
an ordered list of key/value pairs; if the first key contains module. then
every key has all its module. occurrences removed, otherwise the checkpoint is
passed through unchanged. -/
def handleDataParallel {V : Type} : List (List Char × V) → List (List Char × V)
  | [] => []
  | (k, v) :: rest =>
      if listContains modPat k then
        ((k, v) :: rest).map (fun kv => (pyRemove kv.1, kv.2))
      else (k, v) :: rest

/-- Modelled from the spec: torch.nn.Module.load_state_dict, called by
se_mobilenet_v2 on the normalized checkpoint, is external library code that is
not part of this repository. Per the spec it fails when the key set of the
checkpoint does not exactly match the parameter names of the network, and
assignment is all-or-nothing: on success every parameter takes the checkpoint
value for its name, on failure nothing is assigned. -/
def loadStateDict {V : Type} (params sd : List (List Char × V)) :
    Except String (List (List Char × V)) :=
  if ((params.map Prod.fst).all (fun k => (sd.map Prod.fst).contains k)
      && (sd.map Prod.fst).all (fun k => (params.map Prod.fst).contains k)) then
    Except.ok (params.map (fun kv => (kv.1, (sd.lookup kv.1).getD kv.2)))
  else
    Except.error ("Error in loading state_dict")

/-- A 4-dimensional tensor of reals: batch, channel, height, width. -/
def Tensor4 (b c h w : ℕ) : Type := Fin b → Fin c → Fin h → Fin w → ℝ

/-- The ReLU6 activation used throughout the network. -/
noncomputable def relu6 (t : ℝ) : ℝ := min (max t 0) 6

/-- The logistic sigmoid ending the squeeze-and-excitation bottleneck. -/
noncomputable def sigmoid (t : ℝ) : ℝ := 1 / (1 + Real.exp (-t))

/-- Parameters of the SEMobile gate on c channels: nn.Linear(c, c / 4)
followed (after ReLU6) by nn.Linear(c / 4, c); c / 4 is channel // reduction
with the default reduction = 4. -/
structure SEMobileParams (c : ℕ) where
  w1 : Fin (c / 4) → Fin c → ℝ
  b1 : Fin (c / 4) → ℝ
  w2 : Fin c → Fin (c / 4) → ℝ
  b2 : Fin c → ℝ

/-- nn.AdaptiveAvgPool2d(1): channel-wise global average of the feature map. -/
noncomputable def avgPool {b c h w : ℕ} (x : Tensor4 b c h w) (bi : Fin b)
    (ci : Fin c) : ℝ :=
  (∑ i, ∑ j, x bi ci i j) / ((h : ℝ) * w)

/-- First linear layer of the gate: reduce from c to c / 4 channels. -/
noncomputable def linearFc1 {c : ℕ} (p : SEMobileParams c) (inp : Fin c → ℝ)
    (k : Fin (c / 4)) : ℝ :=
  p.b1 k + ∑ j, p.w1 k j * inp j

/-- Second linear layer of the gate: expand from c / 4 back to c channels. -/
noncomputable def linearFc2 {c : ℕ} (p : SEMobileParams c)
    (inp : Fin (c / 4) → ℝ) (i : Fin c) : ℝ :=
  p.b2 i + ∑ k, p.w2 i k * inp k

/-- The per-channel scale computed by SEMobile.forward: the sigmoid of the
two-layer bottleneck applied to the channel-wise global average. -/
noncomputable def seScale {b c h w : ℕ} (p : SEMobileParams c)
    (x : Tensor4 b c h w) (bi : Fin b) (ci : Fin c) : ℝ :=
  sigmoid (linearFc2 p (fun k => relu6 (linearFc1 p (avgPool x bi) k)) ci)

/-- SEMobile.forward: x * y where y is the per-channel scale broadcast over
the spatial dimensions. -/
noncomputable def SEMobile.forward {b c h w : ℕ} (p : SEMobileParams c)
    (x : Tensor4 b c h w) : Tensor4 b c h w :=
  fun bi ci i j => x bi ci i j * seScale p x bi ci

/-- The fields an InvertedResidual module keeps after construction. The conv
and se fields stand for the built convolution stack and squeeze-and-excitation
submodule, abstracted as functions on an additive tensor type T. -/
structure InvertedResidual (T : Type) where
  stride : ℤ
  use_res_connect : Bool
  conv : T → T
  se : T → T

/-- InvertedResidual constructor: stores the stride, asserts stride in [1, 2]
(an AssertionError aborts construction otherwise), and sets use_res_connect to
(stride == 1 and inp == oup). -/
def InvertedResidual.init {T : Type} (inp oup : ℤ) (stride : ℤ)
    (expand_ratio : ℚ) (conv se : T → T) : Except String (InvertedResidual T) :=
  if stride = 1 ∨ stride = 2 then
    Except.ok { stride := stride, use_res_connect := decide (stride = 1 ∧ inp = oup),
                conv := conv, se := se }
  else
    Except.error ("assert stride in [1, 2]")

/-- InvertedResidual.forward: both branches compute se(conv(x)); the residual
addition of x happens exactly when use_res_connect was set. -/
def InvertedResidual.forward {T : Type} [Add T] (blk : InvertedResidual T)
    (x : T) : T :=
  if blk.use_res_connect then x + blk.se (blk.conv x) else blk.se (blk.conv x)

/-- Configuration of one inverted residual block instantiated by the body. -/
structure BlockCfg where
  inp : ℤ
  oup : ℤ
  stride : ℤ
  expand_ratio : ℚ

/-- The fixed body schedule: rows (t, c, n, s) = expansion ratio, output
channels, repeat count, stride of the first block of the stage. -/
def interverted_residual_setting : List (ℚ × ℤ × ℕ × ℤ) :=
  [(1, 16, 1, 1), (6, 24, 2, 2), (6, 32, 3, 2), (6, 64, 4, 2), (6, 96, 3, 1),
   (6, 160, 3, 2), (6, 320, 1, 1)]

/-- One stage of the body loop, mirroring for i in range(n): the block built at
iteration i uses the current input channel, the stage output channel, stride s
when i == 0 and stride 1 otherwise; afterwards the input channel becomes the
output channel. Returns the blocks and the final input channel. -/
def stageLoop (oup s : ℤ) (t : ℚ) : ℕ → ℕ → ℤ → List BlockCfg × ℤ
  | _, 0, inp => ([], inp)
  | i, n + 1, inp =>
      let rest := stageLoop oup s t (i + 1) n oup
      (⟨inp, oup, if i = 0 then s else 1, t⟩ :: rest.1, rest.2)

/-- The body construction loop over the schedule: each stage scales its output
channels by the width multiplier through int(c * width_mult). -/
def bodyLoop (w : ℚ) : List (ℚ × ℤ × ℕ × ℤ) → ℤ → List BlockCfg × ℤ
  | [], inp => ([], inp)
  | (t, c, n, s) :: rest, inp =>
      let oup := pyInt ((c : ℚ) * w)
      let st := stageLoop oup s t 0 n inp
      let more := bodyLoop w rest st.2
      (st.1 ++ more.1, more.2)

/-- The head width: int(last_channel * width_mult) if width_mult > 1.0 else
last_channel. -/
def lastChannelOf (last_channel : ℤ) (width_mult : ℚ) : ℤ :=
  if 1 < width_mult then pyInt ((last_channel : ℚ) * width_mult) else last_channel

/-- The architecture data recorded while constructing SEMobileNetV2: the stem
output channels, the inverted residual block configurations, the input and
output channel counts of the 1x1 head convolution, and the class count of the
classifier. -/
structure SEMobileNetV2 where
  stemOut : ℤ
  blocks : List BlockCfg
  headIn : ℤ
  headOut : ℤ
  nClass : ℤ

/-- SEMobileNetV2 constructor: asserts input_size % 32 == 0, scales the stem
output as int(32 * width_mult), runs the body loop over the schedule, and
feeds the final input channel into the 1x1 head whose width is lastChannelOf. -/
def SEMobileNetV2.init (n_class : ℤ) (input_size : ℕ) (width_mult : ℚ)
    (last_channel : ℤ) : Except String SEMobileNetV2 :=
  if input_size % 32 = 0 then
    let input_channel := pyInt ((32 : ℚ) * width_mult)
    let body := bodyLoop width_mult interverted_residual_setting input_channel
    Except.ok { stemOut := input_channel, blocks := body.1, headIn := body.2,
                headOut := lastChannelOf last_channel width_mult,
                nClass := n_class }
  else
    Except.error ("assert input_size % 32 == 0")

/-- The channel-chaining invariant: starting from the stem output, each block
consumes the channels the previous one produced, and the last block feeds the
head input. -/
def chainOK : ℤ → List BlockCfg → ℤ → Prop
  | inp, [], fin => inp = fin
  | inp, blk :: rest, fin => blk.inp = inp ∧ chainOK blk.oup rest fin

/-- The stride sequence the schedule prescribes: for each stage, the stage
stride first, then stride 1 for the remaining n - 1 blocks. -/
def stridePattern : List (ℚ × ℤ × ℕ × ℤ) → List ℤ
  | [] => []
  | (_, _, n, s) :: rest => (s :: List.replicate (n - 1) 1) ++ stridePattern rest

/-- The module kinds branched on by SEMobileNetV2._initialize_weights. -/
inductive LayerMod : Type
  | conv2d (kh kw outC : ℕ) (hasBias : Bool)
  | batchNorm2d (numFeatures : ℕ)
  | linear (inF outF : ℕ)

/-- How one parameter tensor is filled at construction. -/
inductive ParamInit : Type
  | normal (mean std : ℝ)
  | const (v : ℝ)

/-- The initialization applied to one module: its weight and, when the module
has one, its bias. -/
structure ModuleInit where
  weight : ParamInit
  bias : Option ParamInit

/-- Embedding of SEMobileNetV2._initialize_weights, per module kind: Conv2d
weights are drawn normal(0, sqrt(2 / (kh * kw * out_channels))) and a present
bias is zeroed; BatchNorm2d weights are filled with 1 and biases zeroed;
Linear weights are drawn normal(0, 0.01) and biases zeroed. -/
noncomputable def initWeights : LayerMod → ModuleInit
  | .conv2d kh kw outC hb =>
      { weight := ParamInit.normal 0 (Real.sqrt (2 / ((kh : ℝ) * kw * outC))),
        bias := if hb then some (ParamInit.const 0) else none }
  | .batchNorm2d _ =>
      { weight := ParamInit.const 1, bias := some (ParamInit.const 0) }
  | .linear _ _ =>
      { weight := ParamInit.normal 0 0.01, bias := some (ParamInit.const 0) }

/-- The block built by InvertedResidual.init 3 3 1 6 id id, used as a concrete
instance below. -/
def blkW : InvertedResidual ℤ :=
  { stride := 1, use_res_connect := true, conv := id, se := id }

/-- The network data built with the default arguments (width multiplier 1). -/
def netW1 : SEMobileNetV2 :=
  { stemOut := pyInt ((32 : ℚ) * 1),
    blocks := (bodyLoop 1 interverted_residual_setting (pyInt ((32 : ℚ) * 1))).1,
    headIn := (bodyLoop 1 interverted_residual_setting (pyInt ((32 : ℚ) * 1))).2,
    headOut := lastChannelOf 1280 1,
    nClass := 1000 }

/-- The network data built with width multiplier 2. -/
def netW2 : SEMobileNetV2 :=
  { stemOut := pyInt ((32 : ℚ) * 2),
    blocks := (bodyLoop 2 interverted_residual_setting (pyInt ((32 : ℚ) * 2))).1,
    headIn := (bodyLoop 2 interverted_residual_setting (pyInt ((32 : ℚ) * 2))).2,
    headOut := lastChannelOf 1280 2,
    nClass := 1000 }

theorem listContains_modPat_append (b : List Char) :
    listContains modPat (modPat ++ b) = true := by
  simp [modPat, listContains, List.isPrefixOf]

theorem pyRemove_of_not_contains (b : List Char)
    (h : listContains modPat b = false) : pyRemove b = b := by
  induction b using pyRemove.induct with
  | case1 rest ih =>
      rw [show ('m' :: 'o' :: 'd' :: 'u' :: 'l' :: 'e' :: '.' :: rest)
            = modPat ++ rest from rfl, listContains_modPat_append] at h
      cases h
  | case2 c rest hne ih =>
      have hcons : listContains modPat (c :: rest)
          = (modPat.isPrefixOf (c :: rest) || listContains modPat rest) := rfl
      rw [hcons, Bool.or_eq_false_iff] at h
      have hstep : pyRemove (c :: rest) = c :: pyRemove rest := by
        simp only [pyRemove]
      rw [hstep, ih h.2]
  | case3 => rfl

theorem sigmoid_mem (t : ℝ) : 0 ≤ sigmoid t ∧ sigmoid t ≤ 1 := by
  unfold sigmoid
  have hd : 0 < 1 + Real.exp (-t) := by positivity
  constructor
  · positivity
  · rw [div_le_one hd]
    have := Real.exp_pos (-t)
    linarith

/-- Claim C1: the forward output of an InvertedResidual block adds a residual
connection of the input iff the stride is 1 and the input channel count equals
the output channel count; otherwise it returns se(conv(x)) with no addition. -/
theorem claim_C1 {T : Type} [Add T] (inp oup stride : ℤ) (t : ℚ)
    (conv se : T → T) (blk : InvertedResidual T)
    (h : InvertedResidual.init inp oup stride t conv se = Except.ok blk)
    (x : T) :
    blk.forward x =
      if stride = 1 ∧ inp = oup then x + se (conv x) else se (conv x) := by
  unfold InvertedResidual.init at h
  by_cases hs : stride = 1 ∨ stride = 2
  · rw [if_pos hs] at h
    injection h with h
    subst h
    by_cases hr : stride = 1 ∧ inp = oup <;>
      simp [InvertedResidual.forward, hr]
  · rw [if_neg hs] at h
    cases h

theorem claim_C1_witness :
    InvertedResidual.init (T := ℤ) 3 3 1 6 id id = Except.ok blkW ∧
    InvertedResidual.forward blkW 7 = 14 := by
  refine ⟨rfl, ?_⟩
  have h := claim_C1 3 3 1 6 id id blkW rfl (7 : ℤ)
  simpa using h

/-- Claim C2 counterexample: a checkpoint whose keys all carry the module.
prefix for which loading differs from loading the unprefixed checkpoint: the
loader removes every occurrence of module., so the suffix module.b collapses
to b, while the unprefixed checkpoint (whose first key lacks module.) is not
rewritten at all; against a network with parameters a, b the prefixed load
succeeds while the unprefixed load fails. -/
theorem claim_C2_counterexample :
    ([(("module.a").data, (0 : ℤ)), (("module.module.b").data, 1)].all
        (fun kv => modPat.isPrefixOf kv.1)) = true ∧
    handleDataParallel [(("module.a").data, (0 : ℤ)), (("module.module.b").data, 1)] ≠
      handleDataParallel [(("a").data, (0 : ℤ)), (("module.b").data, 1)] ∧
    (loadStateDict [(("a").data, (5 : ℤ)), (("b").data, 6)]
        (handleDataParallel
          [(("module.a").data, (0 : ℤ)), (("module.module.b").data, 1)])).isOk = true ∧
    (loadStateDict [(("a").data, (5 : ℤ)), (("b").data, 6)]
        (handleDataParallel
          [(("a").data, (0 : ℤ)), (("module.b").data, 1)])).isOk = false := by
  refine ⟨by decide, by decide, by decide, by decide⟩

/-- Claim C2 (amended): for every nonempty checkpoint whose keys all consist of
the module. prefix followed by a remainder containing no further occurrence of
module., loading assigns exactly the same parameter values as loading the
identical checkpoint without the prefix; the loader triggers normalization by
inspecting the first key and then removes every occurrence of module. from
every key. -/
theorem claim_C2 {V : Type} (base : List (List Char × V)) (hne : base ≠ [])
    (hclean : ∀ kv ∈ base, listContains modPat kv.1 = false)
    (params : List (List Char × V)) :
    handleDataParallel (base.map (fun kv => (modPat ++ kv.1, kv.2)))
      = handleDataParallel base ∧
    loadStateDict params
        (handleDataParallel (base.map (fun kv => (modPat ++ kv.1, kv.2))))
      = loadStateDict params (handleDataParallel base) := by
  obtain ⟨⟨k0, v0⟩, rest, rfl⟩ : ∃ kv rest, base = kv :: rest := by
    cases base with
    | nil => exact absurd rfl hne
    | cons kv rest => exact ⟨kv, rest, rfl⟩
  have h0 : listContains modPat k0 = false :=
    hclean (k0, v0) (List.mem_cons_self _ _)
  have hmain : handleDataParallel (((k0, v0) :: rest).map
      (fun kv => (modPat ++ kv.1, kv.2))) = (k0, v0) :: rest := by
    rw [List.map_cons]
    show (if listContains modPat (modPat ++ k0) then _ else _) = _
    rw [listContains_modPat_append, if_pos rfl]
    rw [List.map_cons, List.map_map]
    have hhead : pyRemove (modPat ++ k0) = k0 := by
      rw [show pyRemove (modPat ++ k0) = pyRemove k0 from rfl,
        pyRemove_of_not_contains k0 h0]
    rw [hhead]
    congr 1
    have : ∀ kv ∈ rest,
        ((fun kv : List Char × V => (pyRemove kv.1, kv.2)) ∘
          (fun kv : List Char × V => (modPat ++ kv.1, kv.2))) kv = kv := by
      intro kv hkv
      have hc : listContains modPat kv.1 = false := hclean kv (by simp [hkv])
      simp only [Function.comp]
      rw [show pyRemove (modPat ++ kv.1) = pyRemove kv.1 from rfl,
        pyRemove_of_not_contains kv.1 hc]
    rw [List.map_congr_left this]
    exact List.map_id' rest
  have hbase : handleDataParallel ((k0, v0) :: rest) = (k0, v0) :: rest := by
    show (if listContains modPat k0 then _ else _) = _
    rw [h0]
    simp
  rw [hmain, hbase]
  exact ⟨rfl, rfl⟩

theorem claim_C2_witness :
    handleDataParallel ([(("a").data, (0 : ℤ)), (("b").data, 1)].map
        (fun kv => (modPat ++ kv.1, kv.2)))
      = handleDataParallel [(("a").data, (0 : ℤ)), (("b").data, 1)] ∧
    loadStateDict [(("a").data, (9 : ℤ)), (("b").data, 9)]
        (handleDataParallel ([(("a").data, (0 : ℤ)), (("b").data, 1)].map
          (fun kv => (modPat ++ kv.1, kv.2))))
      = loadStateDict [(("a").data, (9 : ℤ)), (("b").data, 9)]
        (handleDataParallel [(("a").data, (0 : ℤ)), (("b").data, 1)]) :=
  claim_C2 [(("a").data, (0 : ℤ)), (("b").data, 1)] (by decide) (by decide)
    [(("a").data, (9 : ℤ)), (("b").data, 9)]

/-- Claim C3: after prefix normalization, loading fails exactly when the
checkpoint key set does not match the network parameter name set (a missing or
an extra key), and a successful load assigns a value to exactly the parameter
names of the network, so no partial assignment ever happens. -/
theorem claim_C3 {V : Type} (params sd : List (List Char × V)) :
    ((∃ k, (k ∈ params.map Prod.fst ∧ k ∉ sd.map Prod.fst) ∨
           (k ∈ sd.map Prod.fst ∧ k ∉ params.map Prod.fst)) ↔
      loadStateDict params sd = Except.error ("Error in loading state_dict")) ∧
    (∀ out, loadStateDict params sd = Except.ok out →
      out.map Prod.fst = params.map Prod.fst) := by
  unfold loadStateDict
  by_cases hc : (((params.map Prod.fst).all (fun k => (sd.map Prod.fst).contains k)
      && (sd.map Prod.fst).all (fun k => (params.map Prod.fst).contains k))) = true
  · rw [if_pos hc]
    rw [Bool.and_eq_true, List.all_eq_true, List.all_eq_true] at hc
    constructor
    · constructor
      · rintro ⟨k, hk⟩
        exfalso
        rcases hk with ⟨h1, h2⟩ | ⟨h1, h2⟩
        · exact h2 (List.elem_iff.mp (hc.1 k h1))
        · exact h2 (List.elem_iff.mp (hc.2 k h1))
      · intro he
        cases he
    · intro out hout
      injection hout with hout
      rw [← hout, List.map_map]
      rfl
  · rw [if_neg hc]
    rw [Bool.and_eq_true, not_and_or] at hc
    constructor
    · constructor
      · intro _
        rfl
      · intro _
        rcases hc with hc | hc <;> rw [List.all_eq_true] at hc <;>
          push_neg at hc <;> obtain ⟨k, hk, hknot⟩ := hc
        · exact ⟨k, Or.inl ⟨hk, fun hmem => hknot (List.elem_iff.mpr hmem)⟩⟩
        · exact ⟨k, Or.inr ⟨hk, fun hmem => hknot (List.elem_iff.mpr hmem)⟩⟩
    · intro out hout
      cases hout

theorem claim_C3_witness :
    loadStateDict [(("a").data, (5 : ℤ))] []
      = Except.error ("Error in loading state_dict") :=
  (claim_C3 [(("a").data, (5 : ℤ))] []).1.mp
    ⟨("a").data, Or.inl ⟨by decide, by decide⟩⟩

/-- Claim C4: for every successfully constructed network, the head width is
int(last_channel * width_mult) when the width multiplier exceeds 1 and the
unscaled last_channel when it is at most 1, so the head is never shrunk. -/
theorem claim_C4 (nc : ℤ) (sz : ℕ) (w : ℚ) (lc : ℤ) (net : SEMobileNetV2)
    (h : SEMobileNetV2.init nc sz w lc = Except.ok net) :
    (1 < w → net.headOut = pyInt ((lc : ℚ) * w)) ∧
    (w ≤ 1 → net.headOut = lc) := by
  unfold SEMobileNetV2.init at h
  by_cases hsz : sz % 32 = 0
  · rw [if_pos hsz] at h
    injection h with h
    subst h
    constructor
    · intro hw
      simp [lastChannelOf, hw]
    · intro hw
      simp [lastChannelOf, not_lt.mpr hw]
  · rw [if_neg hsz] at h
    cases h

theorem claim_C4_witness :
    netW2.headOut = pyInt ((1280 : ℚ) * 2) ∧ netW1.headOut = 1280 :=
  ⟨(claim_C4 1000 224 2 1280 netW2 rfl).1 (by norm_num),
   (claim_C4 1000 224 1 1280 netW1 rfl).2 (by norm_num)⟩

/-- Claim C5: the squeeze-and-excitation gate returns the input rescaled
channel-wise by a factor in [0, 1], and that factor is the sigmoid of the
two-layer bottleneck (reduce to c / 4, ReLU6, expand back to c) applied to the
channel-wise global average; the embedding is a pure function of the input and
the gate parameters. -/
theorem claim_C5 {b c h w : ℕ} (p : SEMobileParams c) (x : Tensor4 b c h w) :
    (∀ bi ci i j, SEMobile.forward p x bi ci i j
        = x bi ci i j * seScale p x bi ci) ∧
    (∀ bi ci, 0 ≤ seScale p x bi ci ∧ seScale p x bi ci ≤ 1) ∧
    (∀ bi ci, seScale p x bi ci
        = sigmoid (linearFc2 p (fun k => relu6 (linearFc1 p (avgPool x bi) k)) ci)) := by
  refine ⟨fun _ _ _ _ => rfl, fun bi ci => ?_, fun _ _ => rfl⟩
  exact sigmoid_mem _

/-- Claim C6: in the constructed body, the strides follow the schedule (each
stage opens with its configured stride, the remaining blocks of the stage use
stride 1), and the channel counts chain: the stem output feeds the first
block, each block consumes what the previous one produced, and the last block
feeds the 1x1 head. -/
theorem claim_C6 (nc : ℤ) (sz : ℕ) (w : ℚ) (lc : ℤ) (net : SEMobileNetV2)
    (h : SEMobileNetV2.init nc sz w lc = Except.ok net) :
    chainOK net.stemOut net.blocks net.headIn ∧
    net.blocks.map BlockCfg.stride = stridePattern interverted_residual_setting := by
  unfold SEMobileNetV2.init at h
  by_cases hsz : sz % 32 = 0
  · rw [if_pos hsz] at h
    injection h with h
    subst h
    constructor
    · simp only [interverted_residual_setting, bodyLoop, stageLoop, chainOK]
      norm_num [chainOK]
    · rfl
  · rw [if_neg hsz] at h
    cases h

theorem claim_C6_witness :
    chainOK netW1.stemOut netW1.blocks netW1.headIn ∧
    netW1.blocks.map BlockCfg.stride = stridePattern interverted_residual_setting :=
  claim_C6 1000 224 1 1280 netW1 rfl

/-- Claim C7: constructing an InvertedResidual block succeeds iff the stride
is 1 or 2; any other stride yields the assertion error at construction time. -/
theorem claim_C7 {T : Type} (inp oup stride : ℤ) (t : ℚ) (conv se : T → T) :
    ((InvertedResidual.init inp oup stride t conv se).isOk = true ↔
      (stride = 1 ∨ stride = 2)) ∧
    (¬(stride = 1 ∨ stride = 2) →
      InvertedResidual.init inp oup stride t conv se
        = Except.error ("assert stride in [1, 2]")) := by
  unfold InvertedResidual.init
  by_cases hs : stride = 1 ∨ stride = 2
  · rw [if_pos hs]
    exact ⟨by simpa [Except.isOk, Except.toBool] using hs, fun hn => absurd hs hn⟩
  · rw [if_neg hs]
    exact ⟨by simpa [Except.isOk, Except.toBool] using hs, fun _ => rfl⟩

theorem claim_C7_witness :
    (InvertedResidual.init (T := ℤ) 3 4 2 6 id id).isOk = true ∧
    InvertedResidual.init (T := ℤ) 3 4 3 6 id id
      = Except.error ("assert stride in [1, 2]") :=
  ⟨(claim_C7 3 4 2 6 id id).1.mpr (Or.inr rfl),
   (claim_C7 3 4 3 6 id id).2 (by decide)⟩

/-- Claim C8: constructing the full network succeeds iff the input size is a
multiple of 32; any other input size yields the assertion error at
construction time. -/
theorem claim_C8 (nc : ℤ) (sz : ℕ) (w : ℚ) (lc : ℤ) :
    ((SEMobileNetV2.init nc sz w lc).isOk = true ↔ sz % 32 = 0) ∧
    (¬ sz % 32 = 0 →
      SEMobileNetV2.init nc sz w lc
        = Except.error ("assert input_size % 32 == 0")) := by
  unfold SEMobileNetV2.init
  by_cases hsz : sz % 32 = 0
  · rw [if_pos hsz]
    exact ⟨by simpa [Except.isOk, Except.toBool] using hsz, fun hn => absurd hsz hn⟩
  · rw [if_neg hsz]
    exact ⟨by simpa [Except.isOk, Except.toBool] using hsz, fun _ => rfl⟩

theorem claim_C8_witness :
    (SEMobileNetV2.init 1000 224 1 1280).isOk = true ∧
    SEMobileNetV2.init 1000 225 1 1280
      = Except.error ("assert input_size % 32 == 0") :=
  ⟨(claim_C8 1000 224 1 1280).1.mpr (by decide),
   (claim_C8 1000 225 1 1280).2 (by decide)⟩

/-- Claim C9: at construction, convolution weights are drawn from a zero-mean
normal whose standard deviation squares to 2 / (kernel_height * kernel_width *
out_channels) and a present convolution bias is zeroed; normalization layers
get scale 1 and shift 0; linear layers are drawn from a zero-mean normal with
standard deviation 0.01 and their bias zeroed. -/
theorem claim_C9 :
    (∀ kh kw outC hb,
      initWeights (LayerMod.conv2d kh kw outC hb)
        = { weight := ParamInit.normal 0 (Real.sqrt (2 / ((kh : ℝ) * kw * outC))),
            bias := if hb then some (ParamInit.const 0) else none } ∧
      Real.sqrt (2 / ((kh : ℝ) * kw * outC)) ^ 2 = 2 / ((kh : ℝ) * kw * outC)) ∧
    (∀ nf, initWeights (LayerMod.batchNorm2d nf)
        = { weight := ParamInit.const 1, bias := some (ParamInit.const 0) }) ∧
    (∀ inF outF, initWeights (LayerMod.linear inF outF)
        = { weight := ParamInit.normal 0 0.01, bias := some (ParamInit.const 0) }) := by
  refine ⟨fun kh kw outC hb => ⟨rfl, ?_⟩, fun _ => rfl, fun _ _ => rfl⟩
  rw [Real.sq_sqrt]
  positivity

/-- Claim C10: the normalization decision inspects only the first key: when the
first key does not contain module., no key is rewritten even if later keys
contain it; when it does, every occurrence of module. anywhere in every key is
removed (illustrated on a key with a leading and an interior occurrence). -/
theorem claim_C10 {V : Type} (k0 : List Char) (v0 : V)
    (rest : List (List Char × V)) :
    (listContains modPat k0 = false →
      handleDataParallel ((k0, v0) :: rest) = (k0, v0) :: rest) ∧
    (listContains modPat k0 = true →
      handleDataParallel ((k0, v0) :: rest)
        = ((k0, v0) :: rest).map (fun kv => (pyRemove kv.1, kv.2))) ∧
    pyRemove (("module.fc.module.weight").data) = ("fc.weight").data := by
  refine ⟨fun h => ?_, fun h => ?_, by decide⟩
  · show (if listContains modPat k0 then _ else _) = _
    rw [h]
    simp
  · show (if listContains modPat k0 then _ else _) = _
    rw [h]
    simp

theorem claim_C10_witness :
    handleDataParallel [(("fc.w").data, (0 : ℤ)), (("module.x").data, 1)]
      = [(("fc.w").data, (0 : ℤ)), (("module.x").data, 1)] ∧
    handleDataParallel [(("module.a").data, (2 : ℤ))] = [(("a").data, 2)] := by
  constructor
  · exact (claim_C10 (("fc.w").data) (0 : ℤ) [(("module.x").data, 1)]).1 (by decide)
  · have h := (claim_C10 (("module.a").data) (2 : ℤ) []).2.1 (by decide)
    rw [h]
    decide
